import Mathlib

/-!
Verification of the analytical core of `cocultures.ipynb`:

* `interpolate_fluxes` (the MediumInterpolator): linear interpolation between
  two reaction-flux profiles over the union of their reaction identifiers.
* `calc_kos` (the KnockoutAnalyzer): per-member knockout effects of a
  community, reshaped wide-to-long, with a fixed two-row fallback on failure.

Flux values and the interpolation factor are modelled as rationals; a pandas
Series is modelled as an association list in index order (so duplicated index
labels are representable).  Fallible functions return `Except String`.
-/

/-- A flux profile: a pandas Series keyed by reaction identifier, kept as an
association list in index order (a pandas index may contain duplicates). -/
abbrev FluxProfile := List (String × ℚ)

/-- Label lookup on a series: the first entry whose key matches, which is the
value a pandas lookup resolves to for a duplicated index with `keep='first'`
dedup applied. -/
def lookupFlux (m : FluxProfile) (r : String) : Option ℚ :=
  (m.find? fun p => p.1 == r).map Prod.snd

/-- Model of `reindex` followed by `fillna(0)`: the recorded value when the identifier
is present, else `0` (missing flux is treated as zero). -/
def valOr0 (m : FluxProfile) (r : String) : ℚ :=
  (lookupFlux m r).getD 0

/-- Model of `series[~series.index.duplicated(keep='first')]`: drop every entry whose
key occurred earlier in the series; `seen` accumulates the keys already kept. -/
def dedupFirstAux (seen : List String) : FluxProfile → FluxProfile
  | [] => []
  | p :: rest =>
    if p.1 ∈ seen then dedupFirstAux seen rest
    else p :: dedupFirstAux (p.1 :: seen) rest

/-- First-occurrence-wins duplicate removal on a series. -/
def dedupFirst (m : FluxProfile) : FluxProfile :=
  dedupFirstAux [] m

/-- Body of `interpolate_fluxes` after the factor check:
`all_rxns = list(set(idx₁) ∪ set(idx₂))` (modelled as `dedup` of the
concatenated key lists — same members, no duplicates), each series deduplicated
with `keep='first'`, reindexed over `all_rxns`, `fillna(0)`, and combined as
`(1 - n) * flux₁ + n * flux₂`. -/
def interpProfile (medium_1 medium_2 : FluxProfile) (n : ℚ) : FluxProfile :=
  (medium_1.map Prod.fst ++ medium_2.map Prod.fst).dedup.map fun r =>
    (r, (1 - n) * valOr0 (dedupFirst medium_1) r + n * valOr0 (dedupFirst medium_2) r)

/-- Model of `interpolate_fluxes(medium_1, medium_2, n)` from the notebook: raises
`ValueError("n must be between 0 and 1")` unless `0 <= n <= 1`, otherwise
returns the interpolated series over the union of both reaction indices. -/
def interpolate_fluxes (medium_1 medium_2 : FluxProfile) (n : ℚ) :
    Except String FluxProfile :=
  if ¬ (0 ≤ n ∧ n ≤ 1) then Except.error "n must be between 0 and 1"
  else Except.ok (interpProfile medium_1 medium_2 n)

/-! ### Lemmas about series lookup -/

theorem lookupFlux_nil (r : String) : lookupFlux [] r = none := rfl

theorem lookupFlux_cons (p : String × ℚ) (m : FluxProfile) (r : String) :
    lookupFlux (p :: m) r = if p.1 = r then some p.2 else lookupFlux m r := by
  by_cases h : p.1 = r
  · simp [lookupFlux, List.find?_cons, h]
  · simp [lookupFlux, List.find?_cons, h]

theorem lookupFlux_eq_none_iff (m : FluxProfile) (r : String) :
    lookupFlux m r = none ↔ r ∉ m.map Prod.fst := by
  induction m with
  | nil => simp [lookupFlux_nil]
  | cons p m ih =>
    rw [lookupFlux_cons, List.map_cons]
    by_cases h : p.1 = r
    · simp [h]
    · rw [if_neg h, ih]
      constructor
      · intro hm hmem
        rcases List.mem_cons.mp hmem with h1 | h1
        · exact h h1.symm
        · exact hm h1
      · intro hm h1
        exact hm (List.mem_cons_of_mem _ h1)

theorem isSome_lookupFlux_iff (m : FluxProfile) (r : String) :
    (lookupFlux m r).isSome ↔ r ∈ m.map Prod.fst := by
  rw [← not_iff_not, ← lookupFlux_eq_none_iff, Option.not_isSome_iff_eq_none]

theorem lookupFlux_append (m₁ m₂ : FluxProfile) (r : String) :
    lookupFlux (m₁ ++ m₂) r =
      match lookupFlux m₁ r with
      | some v => some v
      | none => lookupFlux m₂ r := by
  induction m₁ with
  | nil => simp [lookupFlux_nil]
  | cons p m ih =>
    rw [List.cons_append, lookupFlux_cons, lookupFlux_cons]
    by_cases h : p.1 = r <;> simp [h, ih]

theorem lookupFlux_dedupFirstAux (m : FluxProfile) (seen : List String) (r : String) :
    lookupFlux (dedupFirstAux seen m) r =
      if r ∈ seen then none else lookupFlux m r := by
  induction m generalizing seen with
  | nil => by_cases h : r ∈ seen <;> simp [dedupFirstAux, lookupFlux_nil, h]
  | cons p m ih =>
    rw [dedupFirstAux]
    by_cases hp : p.1 ∈ seen
    · rw [if_pos hp, ih, lookupFlux_cons]
      by_cases hr : r ∈ seen
      · simp [hr]
      · have : p.1 ≠ r := fun h => hr (h ▸ hp)
        simp [hr, this]
    · rw [if_neg hp, lookupFlux_cons]
      by_cases hpr : p.1 = r
      · subst hpr
        rw [if_pos rfl, if_neg hp, lookupFlux_cons, if_pos rfl]
      · rw [if_neg hpr, ih (p.1 :: seen), lookupFlux_cons]
        have hrp : r ∈ p.1 :: seen ↔ r ∈ seen := by
          rw [List.mem_cons]
          exact or_iff_right (fun h => hpr h.symm)
        by_cases hr : r ∈ seen
        · rw [if_pos (hrp.mpr hr), if_pos hr]
        · rw [if_neg (fun h => hr (hrp.mp h)), if_neg hr, if_neg hpr]

theorem lookupFlux_dedupFirst (m : FluxProfile) (r : String) :
    lookupFlux (dedupFirst m) r = lookupFlux m r := by
  rw [dedupFirst, lookupFlux_dedupFirstAux]
  simp

theorem valOr0_dedupFirst (m : FluxProfile) (r : String) :
    valOr0 (dedupFirst m) r = valOr0 m r := by
  rw [valOr0, valOr0, lookupFlux_dedupFirst]

theorem lookupFlux_map_graph (l : List String) (f : String → ℚ) (x : String) :
    lookupFlux (l.map fun r => (r, f r)) x =
      if x ∈ l then some (f x) else none := by
  induction l with
  | nil => simp [lookupFlux_nil]
  | cons a l ih =>
    rw [List.map_cons, lookupFlux_cons]
    by_cases h : a = x
    · subst h; simp
    · rw [if_neg h, ih]
      simp only [List.mem_cons]
      by_cases hx : x ∈ l
      · rw [if_pos hx, if_pos (Or.inr hx)]
      · rw [if_neg hx, if_neg]
        rintro (h1 | h1)
        · exact h h1.symm
        · exact hx h1

theorem valOr0_eq_zero_of_not_mem (m : FluxProfile) (r : String)
    (h : r ∉ m.map Prod.fst) : valOr0 m r = 0 := by
  rw [valOr0, (lookupFlux_eq_none_iff m r).mpr h]
  rfl

/-! ### Lemmas about the interpolated profile -/

theorem lookupFlux_interpProfile (m₁ m₂ : FluxProfile) (n : ℚ) (r : String) :
    lookupFlux (interpProfile m₁ m₂ n) r =
      if r ∈ m₁.map Prod.fst ∨ r ∈ m₂.map Prod.fst then
        some ((1 - n) * valOr0 m₁ r + n * valOr0 m₂ r)
      else none := by
  rw [interpProfile, lookupFlux_map_graph, valOr0_dedupFirst, valOr0_dedupFirst]
  by_cases h : r ∈ m₁.map Prod.fst ∨ r ∈ m₂.map Prod.fst
  · rw [if_pos, if_pos h]
    rw [List.mem_dedup, List.mem_append]
    exact h
  · rw [if_neg, if_neg h]
    rw [List.mem_dedup, List.mem_append]
    exact h

theorem interpolate_fluxes_ok (m₁ m₂ : FluxProfile) (n : ℚ)
    (h0 : 0 ≤ n) (h1 : n ≤ 1) :
    interpolate_fluxes m₁ m₂ n = Except.ok (interpProfile m₁ m₂ n) := by
  rw [interpolate_fluxes, if_neg]
  simp [h0, h1]

theorem map_fst_map_graph (l : List String) (f : String → ℚ) :
    (l.map fun r => (r, f r)).map Prod.fst = l := by
  induction l with
  | nil => rfl
  | cons a l ih => rw [List.map_cons, List.map_cons, ih]

theorem interpProfile_ids (m₁ m₂ : FluxProfile) (n : ℚ) :
    (interpProfile m₁ m₂ n).map Prod.fst =
      (m₁.map Prod.fst ++ m₂.map Prod.fst).dedup := by
  rw [interpProfile, map_fst_map_graph]

theorem valOr0_append_covered (A D : FluxProfile)
    (hD : ∀ r ∈ D.map Prod.fst, r ∈ A.map Prod.fst) (r : String) :
    valOr0 (A ++ D) r = valOr0 A r := by
  rw [valOr0, valOr0, lookupFlux_append]
  cases hA : lookupFlux A r with
  | some v => rfl
  | none =>
    cases hDr : lookupFlux D r with
    | none => rfl
    | some v =>
      exfalso
      have hmem : r ∈ D.map Prod.fst := by
        rw [← isSome_lookupFlux_iff, hDr]
        rfl
      rw [lookupFlux_eq_none_iff] at hA
      exact hA (hD r hmem)

/-! ### Claims about `interpolate_fluxes` -/

/-- C1: For profiles `A`, `B` (first-occurrence-wins duplicate resolution
applied by the function itself) and `0 ≤ f ≤ 1`, `interpolate_fluxes A B f`
succeeds, is defined on exactly the union of the two profiles' reaction
identifiers, and maps each identifier `r` of the union to
`(1 - f) * a + f * b` where `a`/`b` are the recorded values (first occurrence)
or `0` when absent. -/
theorem interpolate_affine_on_union (A B : FluxProfile) (f : ℚ)
    (h0 : 0 ≤ f) (h1 : f ≤ 1) :
    ∃ p, interpolate_fluxes A B f = Except.ok p ∧
      (∀ r : String, (lookupFlux p r).isSome ↔
        (r ∈ A.map Prod.fst ∨ r ∈ B.map Prod.fst)) ∧
      (∀ r : String, r ∈ A.map Prod.fst ∨ r ∈ B.map Prod.fst →
        lookupFlux p r = some ((1 - f) * valOr0 A r + f * valOr0 B r)) := by
  refine ⟨_, interpolate_fluxes_ok A B f h0 h1, fun r => ?_, fun r hr => ?_⟩
  · rw [lookupFlux_interpProfile]
    by_cases h : r ∈ A.map Prod.fst ∨ r ∈ B.map Prod.fst
    · simp [h]
    · simp [h]
  · rw [lookupFlux_interpProfile, if_pos hr]

theorem interpolate_affine_on_union_witness :
    ∃ p, interpolate_fluxes [("A", 1)] [("B", 2)] (1/2) = Except.ok p ∧
      (∀ r : String, (lookupFlux p r).isSome ↔
        (r ∈ ([("A", (1:ℚ))] : FluxProfile).map Prod.fst ∨
         r ∈ ([("B", (2:ℚ))] : FluxProfile).map Prod.fst)) ∧
      (∀ r : String, r ∈ ([("A", (1:ℚ))] : FluxProfile).map Prod.fst ∨
          r ∈ ([("B", (2:ℚ))] : FluxProfile).map Prod.fst →
        lookupFlux p r = some ((1 - 1/2) * valOr0 [("A", 1)] r +
          (1/2) * valOr0 [("B", 2)] r)) :=
  interpolate_affine_on_union [("A", 1)] [("B", 2)] (1/2) (by norm_num) (by norm_num)

/-- C3: For any factor outside `[0, 1]` (in particular `-1/10` and `11/10`),
`interpolate_fluxes` fails with the `ValueError` message
`"n must be between 0 and 1"` and produces no profile. -/
theorem interpolate_invalid_factor (A B : FluxProfile) (f : ℚ)
    (h : f < 0 ∨ 1 < f) :
    interpolate_fluxes A B f = Except.error "n must be between 0 and 1" := by
  rw [interpolate_fluxes, if_pos]
  rcases h with h | h
  · exact fun hc => absurd hc.1 (not_le.mpr h)
  · exact fun hc => absurd hc.2 (not_le.mpr h)

theorem interpolate_invalid_factor_witness :
    interpolate_fluxes [("A", 1)] [("B", 2)] (-(1/10)) =
      Except.error "n must be between 0 and 1" ∧
    interpolate_fluxes [("A", 1)] [("B", 2)] (11/10) =
      Except.error "n must be between 0 and 1" :=
  ⟨interpolate_invalid_factor [("A", 1)] [("B", 2)] (-(1/10)) (Or.inl (by norm_num)),
   interpolate_invalid_factor [("A", 1)] [("B", 2)] (11/10) (Or.inr (by norm_num))⟩

/-- C7: the call `interpolate_fluxes A B 0` reproduces profile `A` and
`interpolate_fluxes A B 1` reproduces profile `B`, pointwise over all
identifiers with missing entries treated as `0` (and first-occurrence-wins
resolution, which is what `valOr0` reads off).  The final conjunct records
determinism: being a function of its inputs, the embedding makes two calls on
identical inputs literally identical, and side effects are unrepresentable. -/
theorem interpolate_endpoints (A B : FluxProfile) :
    ∃ pa pb, interpolate_fluxes A B 0 = Except.ok pa ∧
      interpolate_fluxes A B 1 = Except.ok pb ∧
      (∀ r, valOr0 pa r = valOr0 A r) ∧
      (∀ r, valOr0 pb r = valOr0 B r) ∧
      ∀ f : ℚ, interpolate_fluxes A B f = interpolate_fluxes A B f := by
  refine ⟨_, _, interpolate_fluxes_ok A B 0 le_rfl zero_le_one,
    interpolate_fluxes_ok A B 1 zero_le_one le_rfl, fun r => ?_, fun r => ?_,
    fun _ => rfl⟩
  · rw [valOr0, lookupFlux_interpProfile]
    by_cases h : r ∈ A.map Prod.fst ∨ r ∈ B.map Prod.fst
    · rw [if_pos h, Option.getD_some]
      ring
    · rw [if_neg h]
      push_neg at h
      rw [valOr0_eq_zero_of_not_mem A r h.1]
      rfl
  · rw [valOr0, lookupFlux_interpProfile]
    by_cases h : r ∈ A.map Prod.fst ∨ r ∈ B.map Prod.fst
    · rw [if_pos h, Option.getD_some]
      ring
    · rw [if_neg h]
      push_neg at h
      rw [valOr0_eq_zero_of_not_mem B r h.2]
      rfl

/-- C8: later duplicate occurrences of an identifier are ignored: appending
entries `D` (resp. `E`) whose identifiers all occurred before in `A`
(resp. `B`) leaves `interpolate_fluxes` unchanged, pointwise on every
identifier; only the first occurrence's value is used. -/
theorem interpolate_first_occurrence_wins (A D B E : FluxProfile) (f : ℚ)
    (h0 : 0 ≤ f) (h1 : f ≤ 1)
    (hD : ∀ r ∈ D.map Prod.fst, r ∈ A.map Prod.fst)
    (hE : ∀ r ∈ E.map Prod.fst, r ∈ B.map Prod.fst) :
    ∃ p q, interpolate_fluxes (A ++ D) (B ++ E) f = Except.ok p ∧
      interpolate_fluxes A B f = Except.ok q ∧
      ∀ r, lookupFlux p r = lookupFlux q r := by
  refine ⟨_, _, interpolate_fluxes_ok _ _ f h0 h1,
    interpolate_fluxes_ok A B f h0 h1, fun r => ?_⟩
  rw [lookupFlux_interpProfile, lookupFlux_interpProfile,
    valOr0_append_covered A D hD, valOr0_append_covered B E hE]
  have hmem : (r ∈ (A ++ D).map Prod.fst ∨ r ∈ (B ++ E).map Prod.fst) ↔
      (r ∈ A.map Prod.fst ∨ r ∈ B.map Prod.fst) := by
    rw [List.map_append, List.map_append, List.mem_append, List.mem_append]
    constructor
    · rintro ((h | h) | (h | h))
      · exact Or.inl h
      · exact Or.inl (hD r h)
      · exact Or.inr h
      · exact Or.inr (hE r h)
    · rintro (h | h)
      · exact Or.inl (Or.inl h)
      · exact Or.inr (Or.inl h)
  by_cases h : r ∈ A.map Prod.fst ∨ r ∈ B.map Prod.fst
  · rw [if_pos (hmem.mpr h), if_pos h]
  · rw [if_neg (fun hc => h (hmem.mp hc)), if_neg h]

theorem interpolate_first_occurrence_wins_witness :
    ∃ p q, interpolate_fluxes ([("R", 3)] ++ [("R", 7)]) ([] ++ []) (1/2) =
        Except.ok p ∧
      interpolate_fluxes [("R", 3)] [] (1/2) = Except.ok q ∧
      ∀ r, lookupFlux p r = lookupFlux q r :=
  interpolate_first_occurrence_wins [("R", 3)] [("R", 7)] [] [] (1/2)
    (by norm_num) (by norm_num) (by simp) (by simp)

/-- C9: the output profile of a successful interpolation enumerates each
identifier of the union exactly once (no duplicate identifiers), even when the
inputs contain duplicates. -/
theorem interpolate_output_ids_nodup (A B : FluxProfile) (f : ℚ)
    (h0 : 0 ≤ f) (h1 : f ≤ 1) :
    ∃ p, interpolate_fluxes A B f = Except.ok p ∧
      (p.map Prod.fst).Nodup ∧
      ∀ r, r ∈ p.map Prod.fst ↔ (r ∈ A.map Prod.fst ∨ r ∈ B.map Prod.fst) := by
  refine ⟨_, interpolate_fluxes_ok A B f h0 h1, ?_, fun r => ?_⟩
  · rw [interpProfile_ids]
    exact List.nodup_dedup _
  · rw [interpProfile_ids, List.mem_dedup, List.mem_append]

theorem interpolate_output_ids_nodup_witness :
    ∃ p, interpolate_fluxes [("R", 3), ("R", 7)] [("S", 5)] (1/2) =
        Except.ok p ∧
      (p.map Prod.fst).Nodup ∧
      ∀ r, r ∈ p.map Prod.fst ↔
        (r ∈ ([("R", (3:ℚ)), ("R", (7:ℚ))] : FluxProfile).map Prod.fst ∨
         r ∈ ([("S", (5:ℚ))] : FluxProfile).map Prod.fst) :=
  interpolate_output_ids_nodup [("R", 3), ("R", 7)] [("S", 5)] (1/2)
    (by norm_num) (by norm_num)

/-- C10: swapping the two profiles while reflecting the factor leaves the
interpolation unchanged: for `0 ≤ f ≤ 1`, `interpolate_fluxes A B f` and
`interpolate_fluxes B A (1 - f)` agree on every identifier (both defined with
equal values on the union, both undefined elsewhere). -/
theorem interpolate_swap_reflect (A B : FluxProfile) (f : ℚ)
    (h0 : 0 ≤ f) (h1 : f ≤ 1) :
    ∃ p q, interpolate_fluxes A B f = Except.ok p ∧
      interpolate_fluxes B A (1 - f) = Except.ok q ∧
      ∀ r, lookupFlux p r = lookupFlux q r := by
  refine ⟨_, _, interpolate_fluxes_ok A B f h0 h1,
    interpolate_fluxes_ok B A (1 - f) (by linarith) (by linarith), fun r => ?_⟩
  rw [lookupFlux_interpProfile, lookupFlux_interpProfile]
  by_cases h : r ∈ A.map Prod.fst ∨ r ∈ B.map Prod.fst
  · rw [if_pos h, if_pos h.symm]
    congr 1
    ring
  · rw [if_neg h, if_neg (fun hc => h hc.symm)]

theorem interpolate_swap_reflect_witness :
    ∃ p q, interpolate_fluxes [("A", 1)] [("B", 2)] (1/4) = Except.ok p ∧
      interpolate_fluxes [("B", 2)] [("A", 1)] (1 - 1/4) = Except.ok q ∧
      ∀ r, lookupFlux p r = lookupFlux q r :=
  interpolate_swap_reflect [("A", 1)] [("B", 2)] (1/4) (by norm_num) (by norm_num)

/-! ### The KnockoutAnalyzer (`calc_kos`) -/

/-- Python string comparison on the underlying character lists: code-point
lexicographic order, which is the order `sorted` uses on `str`. -/
def charListLe : List Char → List Char → Bool
  | [], _ => true
  | _ :: _, [] => false
  | a :: as, b :: bs =>
    if a < b then true
    else if b < a then false
    else charListLe as bs

/-- Python `<=` on strings. -/
def pyStrLe (a b : String) : Prop := charListLe a.data b.data = true

instance : DecidableRel pyStrLe := fun a b =>
  inferInstanceAs (Decidable (charListLe a.data b.data = true))

/-- Community label: `"_".join(sorted(ids))` (the `SampleID` column). -/
def mkLabel (ids : List String) : String :=
  String.intercalate "_" (ids.insertionSort pyStrLe)

/-- One row of the Agora model database: a stable raw identifier (here a
natural number; `calc_kos` normalises it to string form with `str`) plus the
genome-scale model reference consumed by the solver. -/
structure AgoraRow where
  rawId : ℕ
  modelRef : String

/-- Model of `tax = agora_df.loc[indices,]` followed by
`tax['id'] = tax['id'].apply(str)`: resolve the index list to rows (`none`
when a label is missing, where pandas `.loc` raises `KeyError`) and normalise
every member identifier to its string form. -/
def taxIds (agora_df : List AgoraRow) (indices : List ℕ) : Option (List String) :=
  (indices.mapM fun i => agora_df.get? i).map (List.map fun row => toString row.rawId)

/-- The wide knockout-effect table produced by the external solver
(`Community(tax)` + `com.knockout_taxa(...)`): rows indexed by the knocked-out
member, one column per member.  `cell ko kept = none` models a NaN entry (no
defined relative change; with `diag=False` the diagonal is NaN). -/
structure KOTable where
  taxa : List String
  cell : String → String → Option ℚ

/-- One long-format knockout result row
`(knockout, kept, kept_relative_change, error, SampleID)`.
`kept_relative_change = none` models NaN.  The `error` column is a pandas
object column holding either Python `None` (modelled `none`) or text
(modelled `some`). -/
structure KORow where
  knockout : String
  kept : String
  kept_relative_change : Option ℚ
  error : Option String
  sampleID : String

/-- Model of `ko['knockout'] = ko.index` + `ko.melt(id_vars=["knockout"], ...)` +
`ko.dropna()`: one record per defined cell, column-major as pandas `melt`
emits them, NaN cells skipped. -/
def meltDropna (t : KOTable) : List (String × String × ℚ) :=
  t.taxa.flatMap fun kept =>
    t.taxa.filterMap fun ko => (t.cell ko kept).map fun v => (ko, kept, v)

/-- Model of `calc_kos(medium_series, agora_df, indices)` with the external solver (the
`micom` community build plus knockout sweep, everything inside the `try`) as a
parameter.  Success path: melt + dropna, `error` set to the string `'None'`.
Failure path: `pd.DataFrame({"knockout": list(tax.id),
"kept": list(tax.id)[::-1], "kept_relative_change": [np.nan]*2})`, which
raises `ValueError` (propagated) unless the community has exactly two members,
with `error` set to the caught failure's description.  Both paths attach
`SampleID = "_".join(sorted(list(tax.id)))`. -/
def calc_kos (solver : List String → FluxProfile → Except String KOTable)
    (medium_series : FluxProfile) (agora_df : List AgoraRow)
    (indices : List ℕ) : Except String (List KORow) :=
  match taxIds agora_df indices with
  | none => Except.error "KeyError: passed list contains labels not in the index"
  | some ids =>
    match solver ids medium_series with
    | Except.ok ko =>
        Except.ok ((meltDropna ko).map fun x =>
          { knockout := x.1, kept := x.2.1, kept_relative_change := some x.2.2,
            error := some "None", sampleID := mkLabel ids })
    | Except.error e =>
        if ids.length = 2 then
          Except.ok ((ids.zip ids.reverse).map fun p =>
            { knockout := p.1, kept := p.2, kept_relative_change := none,
              error := some e, sampleID := mkLabel ids })
        else Except.error "ValueError: All arrays must be of the same length"

/-- Number of undefined (NaN) cells in the column of `kept`, off the
diagonal. -/
def colOffdiagUndef (t : KOTable) (kept : String) : ℕ :=
  t.taxa.countP fun ko => (ko != kept) && (t.cell ko kept).isNone

/-- Number of off-diagonal undefined (NaN) cells of the wide table. -/
def offdiagUndefCount (t : KOTable) : ℕ :=
  (t.taxa.map (colOffdiagUndef t)).sum

/-! Concrete two- and three-member instances used to instantiate the
hypotheses of the `calc_kos` theorems. -/

def agora2 : List AgoraRow := [⟨1, "m1"⟩, ⟨2, "m2"⟩]

def agora3 : List AgoraRow := [⟨1, "m1"⟩, ⟨2, "m2"⟩, ⟨3, "m3"⟩]

/-- A wide table for the two-member community `["1", "2"]`: the knockout of
`"1"` drops the growth of `"2"` by 20%, the knockout of `"2"` drops the growth
of `"1"` by 10%, and the diagonal is NaN (`diag=False`). -/
def demoTable : KOTable where
  taxa := ["1", "2"]
  cell := fun ko kept =>
    if ko = "1" ∧ kept = "2" then some (-(1/5))
    else if ko = "2" ∧ kept = "1" then some (-(1/10))
    else none

def demoSolver : List String → FluxProfile → Except String KOTable :=
  fun _ _ => Except.ok demoTable

def failSolver : List String → FluxProfile → Except String KOTable :=
  fun _ _ => Except.error "infeasible"

/-! ### The Python string order is total, transitive and antisymmetric -/

theorem charListLe_cons_iff (a b : Char) (as bs : List Char) :
    charListLe (a :: as) (b :: bs) = true ↔
      a < b ∨ (a = b ∧ charListLe as bs = true) := by
  by_cases hab : a < b
  · simp [charListLe, hab]
  · by_cases hba : b < a
    · have hne : a ≠ b := fun h => absurd (h ▸ hba) (lt_irrefl a)
      simp [charListLe, hab, hba, hne]
    · have heq : a = b := le_antisymm (not_lt.mp hba) (not_lt.mp hab)
      simp [charListLe, hab, hba, heq]

theorem charListLe_total : ∀ x y : List Char,
    charListLe x y = true ∨ charListLe y x = true
  | [], _ => Or.inl rfl
  | _ :: _, [] => Or.inr rfl
  | a :: as, b :: bs => by
    rw [charListLe_cons_iff, charListLe_cons_iff]
    rcases lt_trichotomy a b with h | h | h
    · exact Or.inl (Or.inl h)
    · subst h
      rcases charListLe_total as bs with hr | hr
      · exact Or.inl (Or.inr ⟨rfl, hr⟩)
      · exact Or.inr (Or.inr ⟨rfl, hr⟩)
    · exact Or.inr (Or.inl h)

theorem charListLe_trans : ∀ x y z : List Char,
    charListLe x y = true → charListLe y z = true → charListLe x z = true
  | [], _, _, _, _ => rfl
  | _ :: _, [], _, hxy, _ => by simp [charListLe] at hxy
  | _ :: _, _ :: _, [], _, hyz => by simp [charListLe] at hyz
  | a :: as, b :: bs, c :: cs, hxy, hyz => by
    rw [charListLe_cons_iff] at hxy hyz ⊢
    rcases hxy with h1 | ⟨rfl, h1⟩
    · rcases hyz with h2 | ⟨rfl, h2⟩
      · exact Or.inl (lt_trans h1 h2)
      · exact Or.inl h1
    · rcases hyz with h2 | ⟨rfl, h2⟩
      · exact Or.inl h2
      · exact Or.inr ⟨rfl, charListLe_trans as bs cs h1 h2⟩

theorem charListLe_antisymm : ∀ x y : List Char,
    charListLe x y = true → charListLe y x = true → x = y
  | [], [], _, _ => rfl
  | [], _ :: _, _, hyx => by simp [charListLe] at hyx
  | _ :: _, [], hxy, _ => by simp [charListLe] at hxy
  | a :: as, b :: bs, hxy, hyx => by
    rw [charListLe_cons_iff] at hxy hyx
    rcases hxy with h1 | ⟨rfl, h1⟩
    · rcases hyx with h2 | ⟨heq, h2⟩
      · exact absurd (lt_trans h1 h2) (lt_irrefl a)
      · exact absurd (heq ▸ h1) (lt_irrefl b)
    · rcases hyx with h2 | ⟨heq, h2⟩
      · exact absurd h2 (lt_irrefl a)
      · rw [charListLe_antisymm as bs h1 h2]

instance : IsTotal String pyStrLe :=
  ⟨fun a b => charListLe_total a.data b.data⟩

instance : IsTrans String pyStrLe :=
  ⟨fun a b c => charListLe_trans a.data b.data c.data⟩

instance : IsAntisymm String pyStrLe :=
  ⟨fun a b h1 h2 => by
    cases a
    cases b
    exact congrArg String.mk (charListLe_antisymm _ _ h1 h2)⟩

/-- Sorting and joining is invariant under permutation of the identifiers. -/
theorem mkLabel_perm (ids ids' : List String) (h : List.Perm ids ids') :
    mkLabel ids = mkLabel ids' := by
  rw [mkLabel, mkLabel]
  congr 1
  exact List.eq_of_perm_of_sorted
    ((List.perm_insertionSort pyStrLe ids).trans
      (h.trans (List.perm_insertionSort pyStrLe ids').symm))
    (List.sorted_insertionSort pyStrLe ids)
    (List.sorted_insertionSort pyStrLe ids')

/-! ### Unfolding `calc_kos` on each path -/

theorem calc_kos_success_eq
    (solver : List String → FluxProfile → Except String KOTable)
    (medium : FluxProfile) (agora_df : List AgoraRow) (indices : List ℕ)
    (ids : List String) (t : KOTable)
    (hids : taxIds agora_df indices = some ids)
    (hsol : solver ids medium = Except.ok t) :
    calc_kos solver medium agora_df indices =
      Except.ok ((meltDropna t).map fun x =>
        { knockout := x.1, kept := x.2.1, kept_relative_change := some x.2.2,
          error := some "None", sampleID := mkLabel ids }) := by
  rw [calc_kos, hids]
  dsimp only
  rw [hsol]

theorem calc_kos_failure_eq
    (solver : List String → FluxProfile → Except String KOTable)
    (medium : FluxProfile) (agora_df : List AgoraRow) (indices : List ℕ)
    (ids : List String) (e : String)
    (hids : taxIds agora_df indices = some ids)
    (hsol : solver ids medium = Except.error e) :
    calc_kos solver medium agora_df indices =
      if ids.length = 2 then
        Except.ok ((ids.zip ids.reverse).map fun p =>
          { knockout := p.1, kept := p.2, kept_relative_change := none,
            error := some e, sampleID := mkLabel ids })
      else Except.error "ValueError: All arrays must be of the same length" := by
  rw [calc_kos, hids]
  dsimp only
  rw [hsol]

/-! ### Counting lemmas for the melt + dropna reshape -/

theorem length_filterMap_add_countP_isNone {α β : Type} (l : List α)
    (c : α → Option ℚ) (g : α → ℚ → β) :
    (l.filterMap fun a => (c a).map (g a)).length
      + l.countP (fun a => (c a).isNone) = l.length := by
  induction l with
  | nil => rfl
  | cons a l ih =>
    cases h : c a with
    | none =>
      simp [List.filterMap_cons, List.countP_cons, h]
      omega
    | some v =>
      simp [List.filterMap_cons, List.countP_cons, h]
      omega

theorem countP_split {α : Type} (l : List α) (p q : α → Bool) :
    l.countP p = l.countP (fun a => p a && q a)
      + l.countP (fun a => p a && !q a) := by
  induction l with
  | nil => rfl
  | cons a l ih =>
    rw [List.countP_cons, List.countP_cons, List.countP_cons, ih]
    cases hq : q a <;> cases hp : p a <;> simp [hp, hq] <;> omega

theorem length_flatMap_eq_sum {α β : Type} (l : List α) (f : α → List β) :
    (l.flatMap f).length = (l.map fun a => (f a).length).sum := by
  induction l with
  | nil => rfl
  | cons a l ih => simp [List.flatMap_cons, ih]

theorem sum_map_add_sum_map {α : Type} (cs : List α) (F G : α → ℕ) (N : ℕ)
    (h : ∀ c ∈ cs, F c + G c = N) :
    (cs.map F).sum + (cs.map G).sum = cs.length * N := by
  induction cs with
  | nil => simp
  | cons a cs ih =>
    have ha := h a (List.mem_cons_self a cs)
    have ih' := ih fun c hc => h c (List.mem_cons_of_mem a hc)
    rw [List.map_cons, List.map_cons, List.sum_cons, List.sum_cons,
      List.length_cons, Nat.succ_mul]
    omega

theorem sum_map_const_add {α : Type} (cs : List α) (G : α → ℕ) :
    (cs.map fun c => 1 + G c).sum = cs.length + (cs.map G).sum := by
  induction cs with
  | nil => rfl
  | cons a cs ih =>
    rw [List.map_cons, List.map_cons, List.sum_cons, List.sum_cons,
      List.length_cons, ih]
    omega

/-- In a duplicate-free column whose diagonal cell is NaN, the number of NaN
cells is one more than the number of off-diagonal NaN cells. -/
theorem countP_isNone_eq_one_add (t : KOTable) (kept : String)
    (hnodup : t.taxa.Nodup) (hmem : kept ∈ t.taxa)
    (hdiag : t.cell kept kept = none) :
    t.taxa.countP (fun ko => (t.cell ko kept).isNone)
      = 1 + colOffdiagUndef t kept := by
  rw [countP_split t.taxa (fun ko => (t.cell ko kept).isNone)
    (fun ko => ko == kept)]
  have h1 : t.taxa.countP
      (fun ko => (t.cell ko kept).isNone && (ko == kept)) = 1 := by
    have hc : t.taxa.countP
        (fun ko => (t.cell ko kept).isNone && (ko == kept))
        = t.taxa.countP (fun ko => ko == kept) := by
      refine List.countP_congr fun ko _ => ?_
      constructor
      · intro h
        exact ((Bool.and_eq_true _ _).mp h).2
      · intro h
        refine (Bool.and_eq_true _ _).mpr ⟨?_, h⟩
        have hk : ko = kept := eq_of_beq h
        rw [hk, hdiag]
        rfl
    have hcount := List.count_eq_one_of_mem hnodup hmem
    rw [List.count] at hcount
    rw [hc, hcount]
  have h2 : t.taxa.countP
      (fun ko => (t.cell ko kept).isNone && !(ko == kept))
      = colOffdiagUndef t kept := by
    refine List.countP_congr fun ko _ => ?_
    constructor
    · intro h
      rw [Bool.and_comm] at h
      exact h
    · intro h
      rw [Bool.and_comm] at h
      exact h
  rw [h1, h2]

/-! ### Claims about `calc_kos` -/

/-- C2 counterexample: for the three-member community `[0, 1, 2]` over
`agora3` with a failing solver, the fallback `pd.DataFrame` constructor is
handed id lists of length 3 next to `[np.nan]*2` and raises, so `calc_kos`
propagates an error instead of returning the claimed two rows — the claim is
false for community sizes other than two. -/
theorem calc_kos_fallback_counterexample :
    calc_kos failSolver [] agora3 [0, 1, 2] =
      Except.error "ValueError: All arrays must be of the same length" := rfl

/-- C2 (amended): for a community of exactly two members, any solver failure
is contained: `calc_kos` does not propagate it and returns exactly two rows
pairing the two members in original and reversed order, with
`kept_relative_change = NaN` and `error` set to the failure's description.
(The counterexample shows the original claim's "for every community
specification" fails for sizes other than two, where the fallback constructor
itself raises.) -/
theorem calc_kos_fallback_two_members
    (solver : List String → FluxProfile → Except String KOTable)
    (medium : FluxProfile) (agora_df : List AgoraRow) (indices : List ℕ)
    (a b e : String)
    (hids : taxIds agora_df indices = some [a, b])
    (hsol : solver [a, b] medium = Except.error e) :
    calc_kos solver medium agora_df indices = Except.ok
      [⟨a, b, none, some e, mkLabel [a, b]⟩,
       ⟨b, a, none, some e, mkLabel [a, b]⟩] := by
  rw [calc_kos_failure_eq solver medium agora_df indices [a, b] e hids hsol]
  rfl

theorem calc_kos_fallback_two_members_witness :
    calc_kos failSolver [] agora2 [0, 1] = Except.ok
      [⟨"1", "2", none, some "infeasible", mkLabel ["1", "2"]⟩,
       ⟨"2", "1", none, some "infeasible", mkLabel ["1", "2"]⟩] :=
  calc_kos_fallback_two_members failSolver [] agora2 [0, 1] "1" "2" "infeasible"
    rfl rfl

/-- C4 counterexample: a concrete successful run in which every emitted row
has `error = some "None"` — the *string* `'None'` written by
`ko['error'] = 'None'` — which is not the null value `none`; the claim that
the success-path `error` field equals the null value is false on the code. -/
theorem calc_kos_error_string_counterexample :
    calc_kos demoSolver [] agora2 [0, 1] =
      Except.ok [⟨"2", "1", some (-(1/10)), some "None", "1_2"⟩,
                 ⟨"1", "2", some (-(1/5)), some "None", "1_2"⟩] ∧
    (some "None" : Option String) ≠ none :=
  ⟨rfl, Option.some_ne_none "None"⟩

/-- C4 (amended): on the success path, every row emitted by `calc_kos` has its
`error` field equal to the string `"None"` (a textual sentinel), rather than
the null value. -/
theorem calc_kos_success_error_field
    (solver : List String → FluxProfile → Except String KOTable)
    (medium : FluxProfile) (agora_df : List AgoraRow) (indices : List ℕ)
    (ids : List String) (t : KOTable) (rows : List KORow)
    (hids : taxIds agora_df indices = some ids)
    (hsol : solver ids medium = Except.ok t)
    (hrows : calc_kos solver medium agora_df indices = Except.ok rows) :
    ∀ row ∈ rows, row.error = some "None" := by
  rw [calc_kos_success_eq solver medium agora_df indices ids t hids hsol]
    at hrows
  cases hrows
  intro row hrow
  rcases List.mem_map.mp hrow with ⟨x, _, rfl⟩
  rfl

theorem calc_kos_success_error_field_witness :
    KORow.error ⟨"2", "1", some (-(1/10)), some "None", "1_2"⟩ = some "None" :=
  calc_kos_success_error_field demoSolver [] agora2 [0, 1] ["1", "2"]
    demoTable
    [⟨"2", "1", some (-(1/10)), some "None", "1_2"⟩,
     ⟨"1", "2", some (-(1/5)), some "None", "1_2"⟩]
    rfl rfl rfl
    ⟨"2", "1", some (-(1/10)), some "None", "1_2"⟩
    (List.mem_cons_self _ _)

/-- C5: every row returned by `calc_kos` — on the success path and on the
failure path alike — carries the community label
`SampleID = "_".join(sorted(ids))` built from the string-normalised member
identifiers, and that label is invariant under permutation of the community
specification's identifiers. -/
theorem calc_kos_label
    (solver : List String → FluxProfile → Except String KOTable)
    (medium : FluxProfile) (agora_df : List AgoraRow) (indices : List ℕ)
    (ids : List String) (rows : List KORow)
    (hids : taxIds agora_df indices = some ids)
    (hrows : calc_kos solver medium agora_df indices = Except.ok rows) :
    (∀ row ∈ rows, row.sampleID = mkLabel ids) ∧
    (∀ ids' : List String, List.Perm ids' ids → mkLabel ids' = mkLabel ids) := by
  refine ⟨?_, fun ids' h => mkLabel_perm ids' ids h⟩
  intro row hrow
  cases hsol : solver ids medium with
  | ok t =>
    rw [calc_kos_success_eq solver medium agora_df indices ids t hids hsol]
      at hrows
    cases hrows
    rcases List.mem_map.mp hrow with ⟨x, _, rfl⟩
    rfl
  | error e =>
    rw [calc_kos_failure_eq solver medium agora_df indices ids e hids hsol]
      at hrows
    by_cases hlen : ids.length = 2
    · rw [if_pos hlen] at hrows
      cases hrows
      rcases List.mem_map.mp hrow with ⟨x, _, rfl⟩
      rfl
    · rw [if_neg hlen] at hrows
      exact absurd hrows (by simp)

theorem calc_kos_label_witness :
    KORow.sampleID ⟨"2", "1", some (-(1/10)), some "None", "1_2"⟩
        = mkLabel ["1", "2"] ∧
    mkLabel ["2", "1"] = mkLabel ["1", "2"] := by
  have h := calc_kos_label demoSolver [] agora2 [0, 1] ["1", "2"]
    [⟨"2", "1", some (-(1/10)), some "None", "1_2"⟩,
     ⟨"1", "2", some (-(1/5)), some "None", "1_2"⟩] rfl rfl
  exact ⟨h.1 ⟨"2", "1", some (-(1/10)), some "None", "1_2"⟩
      (List.mem_cons_self _ _),
    h.2 ["2", "1"] (List.Perm.swap "1" "2" [])⟩

/-- C6: on a successful `calc_kos` of an `N ≥ 2`-member community whose solver
table is indexed by the (distinct) members and has an undefined diagonal
(`diag=False`), no emitted row pairs a member with itself, no emitted row
carries an undefined relative change (NaN cells are dropped, not emitted), and
the number of rows equals `N·(N−1)` minus the number of off-diagonal undefined
cells of the wide table. -/
theorem calc_kos_success_shape
    (solver : List String → FluxProfile → Except String KOTable)
    (medium : FluxProfile) (agora_df : List AgoraRow) (indices : List ℕ)
    (ids : List String) (t : KOTable) (rows : List KORow)
    (hids : taxIds agora_df indices = some ids)
    (hN : 2 ≤ ids.length)
    (hnodup : ids.Nodup)
    (hsol : solver ids medium = Except.ok t)
    (htaxa : t.taxa = ids)
    (hdiag : ∀ x ∈ t.taxa, t.cell x x = none)
    (hrows : calc_kos solver medium agora_df indices = Except.ok rows) :
    (∀ row ∈ rows, row.knockout ≠ row.kept) ∧
    (∀ row ∈ rows, row.kept_relative_change ≠ none) ∧
    rows.length = ids.length * (ids.length - 1) - offdiagUndefCount t := by
  rw [calc_kos_success_eq solver medium agora_df indices ids t hids hsol]
    at hrows
  cases hrows
  refine ⟨?_, ?_, ?_⟩
  · intro row hrow
    rcases List.mem_map.mp hrow with ⟨x, hx, rfl⟩
    rcases List.mem_flatMap.mp hx with ⟨kept, hkept, hin⟩
    rcases List.mem_filterMap.mp hin with ⟨ko, hko, hcell⟩
    rcases Option.map_eq_some'.mp hcell with ⟨v, hv, rfl⟩
    intro heq
    dsimp at heq
    subst heq
    rw [hdiag ko hko] at hv
    exact Option.noConfusion hv
  · intro row hrow
    rcases List.mem_map.mp hrow with ⟨x, hx, rfl⟩
    rcases List.mem_flatMap.mp hx with ⟨kept, hkept, hin⟩
    rcases List.mem_filterMap.mp hin with ⟨ko, hko, hcell⟩
    rcases Option.map_eq_some'.mp hcell with ⟨v, hv, rfl⟩
    simp
  · have hlen2 : t.taxa.length = ids.length := by rw [htaxa]
    obtain ⟨n, hn⟩ : ∃ n, ids.length = n + 1 := ⟨ids.length - 1, by omega⟩
    have hmul : ids.length * ids.length
        = ids.length * (ids.length - 1) + ids.length := by
      rw [hn, Nat.add_sub_cancel]
      ring
    have hA : ∀ kept ∈ t.taxa,
        (t.taxa.filterMap fun ko =>
          (t.cell ko kept).map fun v => (ko, kept, v)).length
            + (1 + colOffdiagUndef t kept) = t.taxa.length := by
      intro kept hkept
      have h1 := length_filterMap_add_countP_isNone t.taxa
        (fun ko => t.cell ko kept) (fun ko v => (ko, kept, v))
      have h2 := countP_isNone_eq_one_add t kept (htaxa ▸ hnodup) hkept
        (hdiag kept hkept)
      omega
    have hkey := sum_map_add_sum_map t.taxa
      (fun kept => (t.taxa.filterMap fun ko =>
        (t.cell ko kept).map fun v => (ko, kept, v)).length)
      (fun kept => 1 + colOffdiagUndef t kept) t.taxa.length hA
    rw [sum_map_const_add] at hkey
    have hoff : (t.taxa.map fun c => colOffdiagUndef t c).sum
        = offdiagUndefCount t := rfl
    rw [hoff, hlen2] at hkey
    rw [List.length_map, meltDropna, length_flatMap_eq_sum]
    generalize ids.length * (ids.length - 1) = P at hmul ⊢
    generalize ids.length * ids.length = Q at hmul hkey
    omega

theorem calc_kos_success_shape_witness :
    KORow.knockout ⟨"2", "1", some (-(1/10)), some "None", "1_2"⟩
        ≠ KORow.kept ⟨"2", "1", some (-(1/10)), some "None", "1_2"⟩ ∧
    KORow.kept_relative_change ⟨"2", "1", some (-(1/10)), some "None", "1_2"⟩
        ≠ none ∧
    ([⟨"2", "1", some (-(1/10)), some "None", "1_2"⟩,
      ⟨"1", "2", some (-(1/5)), some "None", "1_2"⟩] : List KORow).length
      = (["1", "2"] : List String).length
          * ((["1", "2"] : List String).length - 1)
        - offdiagUndefCount demoTable := by
  have h := calc_kos_success_shape demoSolver [] agora2 [0, 1] ["1", "2"]
    demoTable
    [⟨"2", "1", some (-(1/10)), some "None", "1_2"⟩,
     ⟨"1", "2", some (-(1/5)), some "None", "1_2"⟩]
    rfl (by decide) (by decide) rfl rfl (by decide) rfl
  exact ⟨h.1 ⟨"2", "1", some (-(1/10)), some "None", "1_2"⟩
      (List.mem_cons_self _ _),
    h.2.1 ⟨"2", "1", some (-(1/10)), some "None", "1_2"⟩
      (List.mem_cons_self _ _),
    h.2.2⟩
